import Mathlib

/-!
Verification of the `duino_littlefs` command dispatcher
(`src/LittleFsPacketHandler.{h,cpp}`).

The dispatcher receives one decoded request packet (an opcode plus a raw
byte payload) together with a response buffer of known capacity, performs
one filesystem operation through the LittleFS capability, and writes one
response.  We embed the dispatcher shallowly:

* byte buffers are `List Nat` (each element a byte value),
* the packing/unpacking helpers (`Packer`/`Unpacker`, external `duino_bus`
  code) are modelled from the spec's data-layout rules: little-endian
  fixed-width integers and null-terminated strings, decoding `Option`-valued
  so that reading past the declared payload is a decode failure,
* the filesystem capability (external LittleFS library) is an oracle of
  functions fixing the outcome of every call the handler can make,
* every filesystem call a handler performs is recorded in an event trace,
  including the release of file/directory handles (explicit `close()` calls
  and the scoped-acquisition releases the spec guarantees at scope exit).
-/

/-! ## Opcodes and error codes (from `LittleFsPacketHandler.h`) -/

namespace Command

def FORMAT : Nat := 0x40

def INFO : Nat := 0x41

def LIST : Nat := 0x42

def MKDIR : Nat := 0x43

def REMOVE : Nat := 0x44

def RENAME : Nat := 0x45

def COPY : Nat := 0x46

def READ : Nat := 0x47

def WRITE : Nat := 0x48

def APPEND : Nat := 0x49

def RMDIR : Nat := 0x4a

end Command

namespace Error

def NONE : Nat := 0

def UNABLE_TO_OPEN_FILE : Nat := 1

def WRITE_FAILED : Nat := 2

def READ_FAILED : Nat := 3

def SEEK_FAILED : Nat := 4

def FORMAT_FAILED : Nat := 5

def MKDIR_FAILED : Nat := 6

def RMDIR_FAILED : Nat := 7

def REMOVE_FAILED : Nat := 8

end Error

attribute [simp] Command.FORMAT Command.INFO Command.LIST Command.MKDIR
  Command.REMOVE Command.RENAME Command.COPY Command.READ Command.WRITE
  Command.APPEND Command.RMDIR

attribute [simp] Error.NONE Error.UNABLE_TO_OPEN_FILE Error.WRITE_FAILED
  Error.READ_FAILED Error.SEEK_FAILED Error.FORMAT_FAILED Error.MKDIR_FAILED
  Error.RMDIR_FAILED Error.REMOVE_FAILED

/-! ## Wire encoding (modelled from the spec: little-endian fixed-width
integers, null-terminated strings; `Packer`/`Unpacker` are external
`duino_bus` code specified by the spec as data-layout rules). -/

/-- Encode an unsigned 16-bit value, little-endian. -/
def encodeU16 (n : Nat) : List Nat :=
  [n % 256, n / 256 % 256]

/-- Encode an unsigned 32-bit value, little-endian. -/
def encodeU32 (n : Nat) : List Nat :=
  [n % 256, n / 256 % 256, n / 65536 % 256, n / 16777216 % 256]

/-- Encode a string as its bytes followed by a terminating null. -/
def encodeStr (s : List Nat) : List Nat :=
  s ++ [0]

/-- Modelled from the spec: `Unpacker` decode of a `u8`.  Fails (rather than
read out of bounds) when the buffer is exhausted. -/
def unpackU8 : List Nat → Option (Nat × List Nat)
  | b :: rest => some (b, rest)
  | [] => none

/-- Modelled from the spec: `Unpacker` decode of a little-endian `u16`. -/
def unpackU16 : List Nat → Option (Nat × List Nat)
  | b0 :: b1 :: rest => some (b0 + 256 * b1, rest)
  | _ => none

/-- Modelled from the spec: `Unpacker` decode of a little-endian `u32`. -/
def unpackU32 : List Nat → Option (Nat × List Nat)
  | b0 :: b1 :: b2 :: b3 :: rest =>
      some (b0 + 256 * b1 + 65536 * b2 + 16777216 * b3, rest)
  | _ => none

/-- Modelled from the spec: `Unpacker` decode of a null-terminated string;
reads bytes up to and including the terminating null and fails if no null
occurs within the declared payload. -/
def unpackStr : List Nat → Option (List Nat × List Nat)
  | [] => none
  | b :: rest =>
    if b = 0 then some ([], rest)
    else
      match unpackStr rest with
      | some (s, r) => some (b :: s, r)
      | none => none

/-- Modelled from the spec: `Unpacker` decode of `n` raw bytes. -/
def unpackBytes (n : Nat) (bytes : List Nat) : Option (List Nat × List Nat) :=
  if n ≤ bytes.length then some (bytes.take n, bytes.drop n) else none

/-! ## Requests, responses, the filesystem oracle and the event trace -/

/-- A decoded packet: a one-byte command (opcode) plus a raw payload. -/
structure Packet where
  command : Nat
  data : List Nat
  deriving Repr, DecidableEq

/-- A response under construction: the echoed opcode plus payload bytes,
to be serialized as the command byte followed by the payload. -/
structure Rsp where
  command : Nat
  data : List Nat
  deriving Repr, DecidableEq

/-- Serialization of a response: the spec requires every response to begin
with the one-byte opcode that generated it. -/
def serializeRsp (r : Rsp) : List Nat :=
  r.command :: r.data

/-- File open modes (`FILE_READ` / `FILE_WRITE` / `FILE_APPEND`). -/
inductive FileMode where
  | read
  | write
  | append
  deriving Repr, DecidableEq

/-- One directory entry as yielded by the filesystem's traversal:
name bytes, directory flag, size and modification time. -/
structure FsEntry where
  name : List Nat
  isDir : Bool
  size : Nat
  mtime : Nat
  deriving Repr, DecidableEq

/-- The flags byte of a directory entry: bit 0 set iff it is a directory
(`Flags::DIR = 0x01`). -/
def flagsByte (e : FsEntry) : Nat :=
  if e.isDir then 1 else 0

/-- One call into the filesystem capability, as recorded in a handler's
event trace.  `closeFile` records any release of a file or directory
handle: an explicit `close()` or the scoped-acquisition release at scope
exit. -/
inductive FsEvent where
  | formatFs (ok : Bool)
  | totalBytesFs (n : Nat)
  | usedBytesFs (n : Nat)
  | mkdirFs (path : List Nat) (ok : Bool)
  | removeFs (path : List Nat) (ok : Bool)
  | rmdirFs (path : List Nat) (ok : Bool)
  | openFile (path : List Nat) (mode : FileMode) (ok : Bool)
  | openDir (path : List Nat) (ok : Bool)
  | nextFile (ok : Bool)
  | seekFile (offset : Nat) (ok : Bool)
  | readFile (n : Nat)
  | writeFile (n : Nat)
  | closeFile
  deriving Repr, DecidableEq

/-- The filesystem capability as an oracle: a family of functions fixing
the result of every call a handler can make (the LittleFS library is
external; the spec specifies it only through this interface). -/
structure FsOracle where
  formatOk : Bool
  totalBytes : Nat
  usedBytes : Nat
  mkdirOk : List Nat → Bool
  removeOk : List Nat → Bool
  rmdirOk : List Nat → Bool
  openOk : List Nat → FileMode → Bool
  dirOpenOk : List Nat → Bool
  dirEntries : List Nat → List FsEntry
  seekOk : List Nat → Nat → Bool
  readData : List Nat → Nat → List Nat
  writeAccepted : List Nat → FileMode → Nat → Nat

/-! ## Per-opcode request decoding (field layout from the handler bodies) -/

/-- LIST request: `u16 index`, `str dirname`. -/
def decodeListReq (bytes : List Nat) : Option (Nat × List Nat) :=
  match unpackU16 bytes with
  | none => none
  | some (index, r1) =>
    match unpackStr r1 with
    | none => none
    | some (dirName, _) => some (index, dirName)

/-- MKDIR / REMOVE / RMDIR request: a single `str` path. -/
def decodeStrReq (bytes : List Nat) : Option (List Nat) :=
  match unpackStr bytes with
  | none => none
  | some (s, _) => some s

/-- READ request: `str filename`, `u32 offset`, `u32 length`. -/
def decodeReadReq (bytes : List Nat) : Option (List Nat × Nat × Nat) :=
  match unpackStr bytes with
  | none => none
  | some (filename, r1) =>
    match unpackU32 r1 with
    | none => none
    | some (offset, r2) =>
      match unpackU32 r2 with
      | none => none
      | some (length, _) => some (filename, offset, length)

/-- WRITE / APPEND request: `str filename`, `u32 length`, `length` raw
bytes of data. -/
def decodeWriteReq (bytes : List Nat) : Option (List Nat × List Nat) :=
  match unpackStr bytes with
  | none => none
  | some (filename, r1) =>
    match unpackU32 r1 with
    | none => none
    | some (length, r2) =>
      match unpackBytes length r2 with
      | none => none
      | some (data, _) => some (filename, data)

/-! ## LIST entry emission (`handleList` response loop)

The skip loop (`while (fileNum < index) file = dir.openNextFile();`)
advances the traversal past the first `index` entries, leaving `fileNum =
index`; we render it as `List.drop index`.  The emit loop appends one
encoded entry record per remaining entry for as long as the whole record
fits in the remaining response space, stopping at the first record that
does not fit.  `fileNum` is a `uint16_t`, so it wraps modulo 2^16. -/

/-- Size of one encoded directory entry record:
`u16 index + u8 flags + u32 size + u32 timestamp + name + null`. -/
def entrySize (e : FsEntry) : Nat :=
  12 + e.name.length

/-- Encoding of one directory entry record. -/
def encodeEntry (fileNum : Nat) (e : FsEntry) : List Nat :=
  encodeU16 fileNum ++ [flagsByte e] ++ encodeU32 e.size ++
    encodeU32 e.mtime ++ encodeStr e.name

/-- The LIST emit loop, bytes view: `listBytes fileNum entries space` is
the byte sequence the loop appends to the response. -/
def listBytes : Nat → List FsEntry → Nat → List Nat
  | _, [], _ => []
  | fileNum, e :: rest, space =>
    if entrySize e > space then []
    else encodeEntry fileNum e ++ listBytes ((fileNum + 1) % 65536) rest (space - entrySize e)

/-- The LIST emit loop, record view: the `(index field, entry)` pairs the
loop emits, in order. -/
def listRecords : Nat → List FsEntry → Nat → List (Nat × FsEntry)
  | _, [], _ => []
  | fileNum, e :: rest, space =>
    if entrySize e > space then []
    else (fileNum, e) :: listRecords ((fileNum + 1) % 65536) rest (space - entrySize e)

/-- The directory traversal a LIST request sees: the oracle's entry list
when the directory opens, nothing when `LittleFS.open(dirName)` fails
(`openNextFile` on an invalid handle yields no entries). -/
def effEntries (fs : FsOracle) (dirName : List Nat) : List FsEntry :=
  if fs.dirOpenOk dirName then fs.dirEntries dirName else []

/-- Response of `handleList`: opcode LIST, then the emitted entry records
for the traversal suffix starting at `index`, numbered from `index`. -/
def handleListRsp (fs : FsOracle) (index : Nat) (dirName : List Nat) (cap : Nat) : Rsp :=
  { command := Command.LIST,
    data := listBytes index ((effEntries fs dirName).drop index) cap }

/-- Event trace of the LIST skip loop.  The list argument is the traversal
suffix `cur :: rest` when the current `file` handle is valid, `[]` when it
is invalid; each iteration calls `openNextFile` and the reassignment
releases the previous handle when it was valid. -/
def skipTrace : Nat → List FsEntry → List FsEvent
  | 0, _ => []
  | n + 1, [] => FsEvent.nextFile false :: skipTrace n []
  | n + 1, _ :: rest =>
      FsEvent.nextFile (!rest.isEmpty) :: FsEvent.closeFile :: skipTrace n rest

/-- Event trace of the LIST emit loop (same list representation as
`skipTrace`); the loop breaks, with the current handle still held, at the
first entry whose record does not fit. -/
def emitTrace : List FsEntry → Nat → List FsEvent
  | [], _ => []
  | e :: rest, space =>
    if entrySize e > space then []
    else FsEvent.nextFile (!rest.isEmpty) :: FsEvent.closeFile ::
         emitTrace rest (space - entrySize e)

/-- Whether the `file` handle is still valid when the LIST emit loop
exits: true exactly when the loop broke on a record that did not fit. -/
def emitFinalValid : List FsEntry → Nat → Bool
  | [], _ => false
  | e :: rest, space =>
    if entrySize e > space then true
    else emitFinalValid rest (space - entrySize e)

/-- Event trace of `handleList`: open the directory, fetch the first
entry, run the skip and emit loops, then the scope-exit releases of the
`file` handle (when still valid) and the `dir` handle (when the open
succeeded). -/
def handleListTrace (fs : FsOracle) (index : Nat) (dirName : List Nat) (cap : Nat) : List FsEvent :=
  let eff := effEntries fs dirName
  let rem := eff.drop index
  FsEvent.openDir dirName (fs.dirOpenOk dirName) ::
  FsEvent.nextFile (!eff.isEmpty) ::
  (skipTrace index eff ++ emitTrace rem cap ++
    (if emitFinalValid rem cap then [FsEvent.closeFile] else []) ++
    (if fs.dirOpenOk dirName then [FsEvent.closeFile] else []))

/-! ## The remaining handlers -/

/-- `handleCopy`: echoes the COPY opcode, touches nothing. -/
def handleCopy : Rsp × List FsEvent :=
  ({ command := Command.COPY, data := [] }, [])

/-- `handleRename`: echoes the RENAME opcode, touches nothing. -/
def handleRename : Rsp × List FsEvent :=
  ({ command := Command.RENAME, data := [] }, [])

/-- `handleFormat`: one error byte, `NONE` when `LittleFS.format()`
returns true, `FORMAT_FAILED` otherwise. -/
def handleFormat (fs : FsOracle) : Rsp × List FsEvent :=
  ({ command := Command.FORMAT,
     data := [if fs.formatOk then Error.NONE else Error.FORMAT_FAILED] },
   [FsEvent.formatFs fs.formatOk])

/-- `handleInfo`: fresh `totalBytes`/`usedBytes` queries, both encoded as
little-endian `u32` (the `InfoResponse` struct layout). -/
def handleInfo (fs : FsOracle) : Rsp × List FsEvent :=
  ({ command := Command.INFO,
     data := encodeU32 fs.totalBytes ++ encodeU32 fs.usedBytes },
   [FsEvent.totalBytesFs fs.totalBytes, FsEvent.usedBytesFs fs.usedBytes])

/-- `handleMkDir`: one error byte keyed on `LittleFS.mkdir(dirName)`. -/
def handleMkDir (fs : FsOracle) (dirName : List Nat) : Rsp × List FsEvent :=
  ({ command := Command.MKDIR,
     data := [if fs.mkdirOk dirName then Error.NONE else Error.MKDIR_FAILED] },
   [FsEvent.mkdirFs dirName (fs.mkdirOk dirName)])

/-- `handleRemove`: one error byte keyed on `LittleFS.remove(fileName)`. -/
def handleRemove (fs : FsOracle) (fileName : List Nat) : Rsp × List FsEvent :=
  ({ command := Command.REMOVE,
     data := [if fs.removeOk fileName then Error.NONE else Error.REMOVE_FAILED] },
   [FsEvent.removeFs fileName (fs.removeOk fileName)])

/-- `handleRmDir`: one error byte keyed on `LittleFS.rmdir(dirName)`. -/
def handleRmDir (fs : FsOracle) (dirName : List Nat) : Rsp × List FsEvent :=
  ({ command := Command.RMDIR,
     data := [if fs.rmdirOk dirName then Error.NONE else Error.RMDIR_FAILED] },
   [FsEvent.rmdirFs dirName (fs.rmdirOk dirName)])

/-- `handleRead`.  The handler first appends a 9-byte header
(error `NONE`, the requested offset, the requested length) and remembers
the error and length slots; `cap` is the response data capacity, so after
the header `getSpaceRemaining()` is `cap - 9`.  Each branch below shows
the header after its back-patching.  On the capacity failure the file is
never opened; when open fails the invalid handle needs no release; on the
seek failure the scope exit releases the open handle; on success
`file.read` stores its bytes and the explicit `close()` releases the
handle. -/
def handleRead (fs : FsOracle) (filename : List Nat) (offset length cap : Nat) :
    Rsp × List FsEvent :=
  if length > cap - 9 then
    ({ command := Command.READ,
       data := Error.READ_FAILED :: (encodeU32 offset ++ encodeU32 0) }, [])
  else if !fs.openOk filename FileMode.read then
    ({ command := Command.READ,
       data := Error.UNABLE_TO_OPEN_FILE :: (encodeU32 offset ++ encodeU32 length) },
     [FsEvent.openFile filename FileMode.read false])
  else if !fs.seekOk filename offset then
    ({ command := Command.READ,
       data := Error.SEEK_FAILED :: (encodeU32 offset ++ encodeU32 length) },
     [FsEvent.openFile filename FileMode.read true, FsEvent.seekFile offset false,
      FsEvent.closeFile])
  else
    let bytes := (fs.readData filename offset).take length
    ({ command := Command.READ,
       data := Error.NONE :: (encodeU32 offset ++ encodeU32 bytes.length ++ bytes) },
     [FsEvent.openFile filename FileMode.read true, FsEvent.seekFile offset true,
      FsEvent.readFile bytes.length, FsEvent.closeFile])

/-- `handleWriteAppend`: open in the given mode, write the decoded data
bytes, close; the response carries the echoed opcode and exactly one
error byte.  The write-failure branch returns early, the open handle
released at scope exit. -/
def handleWriteAppend (fs : FsOracle) (mode : FileMode) (opcode : Nat)
    (filename : List Nat) (data : List Nat) : Rsp × List FsEvent :=
  if !fs.openOk filename mode then
    ({ command := opcode, data := [Error.UNABLE_TO_OPEN_FILE] },
     [FsEvent.openFile filename mode false])
  else if fs.writeAccepted filename mode data.length ≠ data.length then
    ({ command := opcode, data := [Error.WRITE_FAILED] },
     [FsEvent.openFile filename mode true,
      FsEvent.writeFile (fs.writeAccepted filename mode data.length), FsEvent.closeFile])
  else
    ({ command := opcode, data := [Error.NONE] },
     [FsEvent.openFile filename mode true,
      FsEvent.writeFile (fs.writeAccepted filename mode data.length), FsEvent.closeFile])

/-! ## The dispatcher -/

/-- Outcome of `handlePacket`: `unhandled` when the opcode is not one of
the eleven (the source returns `false`); `malformed` when the declared
payload is shorter than the fields the opcode requires, a case the source
does not defend against (its `Unpacker` calls would run past the declared
payload, so no well-defined response exists); `ok` carries the response
and the filesystem event trace. -/
inductive DispatchResult where
  | unhandled
  | malformed
  | ok (rsp : Rsp) (trace : List FsEvent)
  deriving Repr, DecidableEq

/-- The command dispatcher `LittleFsPacketHandler::handlePacket`, with
the per-opcode request decoding made explicit.  `cap` is the response
packet's data capacity. -/
def handlePacket (fs : FsOracle) (pkt : Packet) (cap : Nat) : DispatchResult :=
  if pkt.command = Command.COPY then
    DispatchResult.ok handleCopy.1 handleCopy.2
  else if pkt.command = Command.FORMAT then
    DispatchResult.ok (handleFormat fs).1 (handleFormat fs).2
  else if pkt.command = Command.INFO then
    DispatchResult.ok (handleInfo fs).1 (handleInfo fs).2
  else if pkt.command = Command.LIST then
    match decodeListReq pkt.data with
    | none => DispatchResult.malformed
    | some (index, dirName) =>
      DispatchResult.ok (handleListRsp fs index dirName cap)
        (handleListTrace fs index dirName cap)
  else if pkt.command = Command.MKDIR then
    match decodeStrReq pkt.data with
    | none => DispatchResult.malformed
    | some dirName => DispatchResult.ok (handleMkDir fs dirName).1 (handleMkDir fs dirName).2
  else if pkt.command = Command.REMOVE then
    match decodeStrReq pkt.data with
    | none => DispatchResult.malformed
    | some fileName =>
      DispatchResult.ok (handleRemove fs fileName).1 (handleRemove fs fileName).2
  else if pkt.command = Command.RENAME then
    DispatchResult.ok handleRename.1 handleRename.2
  else if pkt.command = Command.READ then
    match decodeReadReq pkt.data with
    | none => DispatchResult.malformed
    | some (filename, offset, length) =>
      DispatchResult.ok (handleRead fs filename offset length cap).1
        (handleRead fs filename offset length cap).2
  else if pkt.command = Command.WRITE then
    match decodeWriteReq pkt.data with
    | none => DispatchResult.malformed
    | some (filename, data) =>
      DispatchResult.ok (handleWriteAppend fs FileMode.write pkt.command filename data).1
        (handleWriteAppend fs FileMode.write pkt.command filename data).2
  else if pkt.command = Command.APPEND then
    match decodeWriteReq pkt.data with
    | none => DispatchResult.malformed
    | some (filename, data) =>
      DispatchResult.ok (handleWriteAppend fs FileMode.append pkt.command filename data).1
        (handleWriteAppend fs FileMode.append pkt.command filename data).2
  else if pkt.command = Command.RMDIR then
    match decodeStrReq pkt.data with
    | none => DispatchResult.malformed
    | some dirName => DispatchResult.ok (handleRmDir fs dirName).1 (handleRmDir fs dirName).2
  else DispatchResult.unhandled

/-- Whether an opcode is one of the eleven the dispatcher recognizes. -/
def recognizedOp (op : Nat) : Bool :=
  op = Command.FORMAT || op = Command.INFO || op = Command.LIST || op = Command.MKDIR ||
  op = Command.REMOVE || op = Command.RENAME || op = Command.COPY || op = Command.READ ||
  op = Command.WRITE || op = Command.APPEND || op = Command.RMDIR

/-- Events that acquire a file or directory handle: a successful file
open, a successful directory open, or `openNextFile` yielding a valid
entry handle. -/
def isAcquire : FsEvent → Bool
  | FsEvent.openFile _ _ ok => ok
  | FsEvent.openDir _ ok => ok
  | FsEvent.nextFile ok => ok
  | _ => false

/-- Events that release a handle. -/
def isRelease : FsEvent → Bool
  | FsEvent.closeFile => true
  | _ => false

/-- Number of handle acquisitions in a trace. -/
def acquires (t : List FsEvent) : Nat :=
  t.countP (fun e => isAcquire e)

/-- Number of handle releases in a trace. -/
def releases (t : List FsEvent) : Nat :=
  t.countP (fun e => isRelease e)

/-- The event trace of a dispatch outcome (empty when no handler ran). -/
def traceOf : DispatchResult → List FsEvent
  | DispatchResult.ok _ t => t
  | _ => []

/-! ## Derived views of the LIST emit loop -/

/-- Total encoded size of a list of entries. -/
def sumSizes (l : List FsEntry) : Nat :=
  (l.map entrySize).sum

/-- Number of entries the emit loop emits from `l` with `space` bytes of
room. -/
def emitCount : List FsEntry → Nat → Nat
  | [], _ => 0
  | e :: rest, space =>
    if entrySize e > space then 0 else emitCount rest (space - entrySize e) + 1

/-- `cutAt l K space` holds when the emit loop over `l` with `space` bytes
of room emits exactly the first `K` entries and then stops at entry `K`,
which exists but does not fit. -/
def cutAt : List FsEntry → Nat → Nat → Bool
  | [], _, _ => false
  | e :: _, 0, space => decide (entrySize e > space)
  | e :: rest, k + 1, space => decide (entrySize e ≤ space) && cutAt rest k (space - entrySize e)

/-- Entries paired with their record index fields: the first gets `i`, and
the field, a `u16`, advances modulo 2^16. -/
def withIdx : Nat → List FsEntry → List (Nat × FsEntry)
  | _, [] => []
  | i, e :: rest => (i, e) :: withIdx ((i + 1) % 65536) rest

/-- Concatenation of the encodings of a list of records. -/
def recordsBytes (rs : List (Nat × FsEntry)) : List Nat :=
  rs.foldr (fun p acc => encodeEntry p.1 p.2 ++ acc) []

/-- The records a LIST request with the given start index and capacity
emits: the record view of `handleListRsp`. -/
def listPage (fs : FsOracle) (index : Nat) (dirName : List Nat) (cap : Nat) :
    List (Nat × FsEntry) :=
  listRecords index ((effEntries fs dirName).drop index) cap

/-! ## A small concrete filesystem oracle, used to instantiate theorems -/

/-- A one-byte-named plain file. -/
def entA : FsEntry :=
  { name := [97], isDir := false, size := 5, mtime := 7 }

/-- A two-byte-named directory. -/
def entB : FsEntry :=
  { name := [98, 99], isDir := true, size := 0, mtime := 9 }

/-- A concrete oracle: every call succeeds, the one directory holds
`entA` and `entB`, reads yield five bytes, writes accept everything. -/
def fsW : FsOracle where
  formatOk := true
  totalBytes := 1000
  usedBytes := 30
  mkdirOk := fun _ => true
  removeOk := fun _ => false
  rmdirOk := fun _ => true
  openOk := fun _ _ => true
  dirOpenOk := fun _ => true
  dirEntries := fun _ => [entA, entB]
  seekOk := fun _ _ => true
  readData := fun _ _ => [1, 2, 3, 4, 5]
  writeAccepted := fun _ _ n => n

/-- A concrete oracle whose one directory holds 65537 copies of `entA`
and where no open ever succeeds, exercising the `u16` wrap of the LIST
record index field. -/
def fsBig : FsOracle where
  formatOk := false
  totalBytes := 0
  usedBytes := 0
  mkdirOk := fun _ => false
  removeOk := fun _ => false
  rmdirOk := fun _ => false
  openOk := fun _ _ => false
  dirOpenOk := fun _ => true
  dirEntries := fun _ => List.replicate 65537 entA
  seekOk := fun _ _ => false
  readData := fun _ _ => []
  writeAccepted := fun _ _ _ => 0

/-! ## Lemmas about the LIST emit loop -/

theorem encodeEntry_length (i : Nat) (e : FsEntry) :
    (encodeEntry i e).length = entrySize e := by
  simp [encodeEntry, encodeU16, encodeU32, encodeStr, entrySize]
  omega

theorem listBytes_eq_recordsBytes (l : List FsEntry) (i cap : Nat) :
    listBytes i l cap = recordsBytes (listRecords i l cap) := by
  induction l generalizing i cap with
  | nil => simp [listBytes, listRecords, recordsBytes]
  | cons e rest ih =>
    simp only [listBytes, listRecords]
    split
    · simp [recordsBytes]
    · simp [recordsBytes, List.foldr_cons]
      rw [ih]
      rfl

theorem withIdx_map_snd (i : Nat) (l : List FsEntry) :
    (withIdx i l).map Prod.snd = l := by
  induction l generalizing i with
  | nil => rfl
  | cons e rest ih => simp [withIdx, ih]

theorem withIdx_length (i : Nat) (l : List FsEntry) :
    (withIdx i l).length = l.length := by
  induction l generalizing i with
  | nil => rfl
  | cons e rest ih => simp [withIdx, ih]

theorem listRecords_eq_withIdx_take (l : List FsEntry) (i cap : Nat) :
    listRecords i l cap = withIdx i (l.take (emitCount l cap)) := by
  induction l generalizing i cap with
  | nil => simp [listRecords, emitCount, withIdx]
  | cons e rest ih =>
    simp only [listRecords, emitCount]
    split
    · simp [withIdx]
    · simp [withIdx, ih]

theorem cutAt_emitCount (l : List FsEntry) (K cap : Nat) (h : cutAt l K cap = true) :
    emitCount l cap = K ∧ K < l.length := by
  induction l generalizing K cap with
  | nil => simp [cutAt] at h
  | cons e rest ih =>
    cases K with
    | zero =>
      simp [cutAt, decide_eq_true_eq] at h
      simp [emitCount, h]
    | succ k =>
      simp [cutAt, decide_eq_true_eq, Bool.and_eq_true] at h
      obtain ⟨h1, h2⟩ := h
      obtain ⟨hc, hl⟩ := ih k (cap - entrySize e) h2
      refine ⟨?_, by simpa using Nat.succ_lt_succ hl⟩
      simp [emitCount, Nat.not_lt.mpr h1, hc]

theorem listRecords_full (l : List FsEntry) (i cap : Nat) (h : sumSizes l ≤ cap) :
    listRecords i l cap = withIdx i l := by
  induction l generalizing i cap with
  | nil => rfl
  | cons e rest ih =>
    have hsum : entrySize e + sumSizes rest ≤ cap := by
      simpa [sumSizes] using h
    simp only [listRecords]
    rw [if_neg (by omega)]
    rw [ih ((i + 1) % 65536) (cap - entrySize e) (by omega)]
    rfl

theorem listBytes_length_le (l : List FsEntry) (i cap : Nat) :
    (listBytes i l cap).length ≤ cap := by
  induction l generalizing i cap with
  | nil => simp [listBytes]
  | cons e rest ih =>
    simp only [listBytes]
    split
    · simp
    · rename_i hfit
      have := ih ((i + 1) % 65536) (cap - entrySize e)
      simp only [List.length_append, encodeEntry_length]
      omega

theorem withIdx_getElem? (l : List FsEntry) (i j : Nat) (hi : i < 65536) :
    (withIdx i l)[j]? = (l[j]?).map (fun e => ((i + j) % 65536, e)) := by
  induction l generalizing i j with
  | nil => simp [withIdx]
  | cons e rest ih =>
    cases j with
    | zero => simp [withIdx, Nat.mod_eq_of_lt hi]
    | succ j =>
      have hi1 : (i + 1) % 65536 < 65536 := Nat.mod_lt _ (by norm_num)
      simp only [withIdx, List.getElem?_cons_succ, ih ((i + 1) % 65536) j hi1]
      have hmod : ((i + 1) % 65536 + j) % 65536 = (i + (j + 1)) % 65536 := by omega
      rw [hmod]

/-! ## Handle accounting lemmas -/

theorem acquires_nil : acquires [] = 0 := rfl

theorem releases_nil : releases [] = 0 := rfl

theorem acquires_cons (e : FsEvent) (t : List FsEvent) :
    acquires (e :: t) = acquires t + (isAcquire e).toNat := by
  simp [acquires, List.countP_cons]
  cases h : isAcquire e <;> simp

theorem releases_cons (e : FsEvent) (t : List FsEvent) :
    releases (e :: t) = releases t + (isRelease e).toNat := by
  simp [releases, List.countP_cons]
  cases h : isRelease e <;> simp

theorem acquires_append (s t : List FsEvent) :
    acquires (s ++ t) = acquires s + acquires t := by
  simp [acquires, List.countP_append]

theorem releases_append (s t : List FsEvent) :
    releases (s ++ t) = releases s + releases t := by
  simp [releases, List.countP_append]

theorem skipTrace_balance (n : Nat) (l : List FsEntry) :
    releases (skipTrace n l) + (!(l.drop n).isEmpty).toNat
      = acquires (skipTrace n l) + (!l.isEmpty).toNat := by
  induction n generalizing l with
  | zero => simp [skipTrace, acquires_nil, releases_nil]
  | succ n ih =>
    cases l with
    | nil =>
      have h := ih []
      simp only [skipTrace, List.drop_nil, acquires_cons, releases_cons,
        isAcquire, isRelease, List.isEmpty_nil] at h ⊢
      omega
    | cons e rest =>
      have h := ih rest
      simp only [skipTrace, List.drop_succ_cons, acquires_cons, releases_cons,
        isAcquire, isRelease, List.isEmpty_cons] at h ⊢
      cases hre : rest.isEmpty <;>
        cases hrd : (rest.drop n).isEmpty <;>
          simp only [hre, hrd] at h ⊢ <;> simp at h ⊢ <;> omega

theorem emitTrace_balance (l : List FsEntry) (space : Nat) :
    releases (emitTrace l space) + (emitFinalValid l space).toNat
      = acquires (emitTrace l space) + (!l.isEmpty).toNat := by
  induction l generalizing space with
  | nil => simp [emitTrace, emitFinalValid, acquires_nil, releases_nil]
  | cons e rest ih =>
    simp only [emitTrace, emitFinalValid]
    split
    · simp [acquires_nil, releases_nil]
    · have h := ih (space - entrySize e)
      simp only [acquires_cons, releases_cons, isAcquire, isRelease,
        List.isEmpty_cons] at h ⊢
      cases hre : rest.isEmpty <;>
        cases hfv : emitFinalValid rest (space - entrySize e) <;>
          simp only [hre, hfv] at h ⊢ <;> simp at h ⊢ <;> omega

theorem handleList_balance (fs : FsOracle) (index : Nat) (dirName : List Nat) (cap : Nat) :
    acquires (handleListTrace fs index dirName cap)
      = releases (handleListTrace fs index dirName cap) := by
  unfold handleListTrace
  have h1 := skipTrace_balance index (effEntries fs dirName)
  have h2 := emitTrace_balance ((effEntries fs dirName).drop index) cap
  cases hdo : fs.dirOpenOk dirName <;>
    cases hfv : emitFinalValid ((effEntries fs dirName).drop index) cap <;>
      cases hie : (effEntries fs dirName).isEmpty <;>
        cases hde : ((effEntries fs dirName).drop index).isEmpty <;>
          (simp only [hdo, hfv, hie, hde] at h1 h2 ⊢
           simp [acquires_nil, releases_nil, acquires_cons, releases_cons,
             acquires_append, releases_append, isAcquire, isRelease] at h1 h2 ⊢
           omega)

theorem handleRead_balance (fs : FsOracle) (f : List Nat) (off len cap : Nat) :
    acquires (handleRead fs f off len cap).2 = releases (handleRead fs f off len cap).2 := by
  unfold handleRead
  split
  · rfl
  split
  · simp [acquires, releases, List.countP_cons, isAcquire, isRelease]
  split
  · simp [acquires, releases, List.countP_cons, isAcquire, isRelease]
  · simp [acquires, releases, List.countP_cons, isAcquire, isRelease]

theorem handleWriteAppend_balance (fs : FsOracle) (mode : FileMode) (op : Nat)
    (f d : List Nat) :
    acquires (handleWriteAppend fs mode op f d).2
      = releases (handleWriteAppend fs mode op f d).2 := by
  unfold handleWriteAppend
  split
  · simp [acquires, releases, List.countP_cons, isAcquire, isRelease]
  split
  · simp [acquires, releases, List.countP_cons, isAcquire, isRelease]
  · simp [acquires, releases, List.countP_cons, isAcquire, isRelease]

/-! ## Claim theorems -/

/-- C5: for every request, every file or directory handle acquired while
handling it is released before the handler returns, on every exit path:
in each dispatch trace, handle acquisitions and releases balance. -/
theorem C5_handles_released (fs : FsOracle) (pkt : Packet) (cap : Nat) :
    acquires (traceOf (handlePacket fs pkt cap))
      = releases (traceOf (handlePacket fs pkt cap)) := by
  by_cases h1 : pkt.command = Command.COPY
  · simp [handlePacket, h1, traceOf, handleCopy, acquires_nil, releases_nil]
  by_cases h2 : pkt.command = Command.FORMAT
  · simp [handlePacket, h1, h2, traceOf, handleFormat, acquires, releases,
      List.countP_cons, isAcquire, isRelease]
  by_cases h3 : pkt.command = Command.INFO
  · simp [handlePacket, h1, h2, h3, traceOf, handleInfo, acquires, releases,
      List.countP_cons, isAcquire, isRelease]
  by_cases h4 : pkt.command = Command.LIST
  · simp [handlePacket, h1, h2, h3, h4]
    cases hdec : decodeListReq pkt.data with
    | none => simp [traceOf, acquires_nil, releases_nil]
    | some p =>
      obtain ⟨index, dirName⟩ := p
      simp [traceOf]
      exact handleList_balance fs index dirName cap
  by_cases h5 : pkt.command = Command.MKDIR
  · simp [handlePacket, h1, h2, h3, h4, h5]
    cases hdec : decodeStrReq pkt.data with
    | none => simp [traceOf, acquires_nil, releases_nil]
    | some d =>
      simp [traceOf, handleMkDir, acquires, releases, List.countP_cons,
        isAcquire, isRelease]
  by_cases h6 : pkt.command = Command.REMOVE
  · simp [handlePacket, h1, h2, h3, h4, h5, h6]
    cases hdec : decodeStrReq pkt.data with
    | none => simp [traceOf, acquires_nil, releases_nil]
    | some d =>
      simp [traceOf, handleRemove, acquires, releases, List.countP_cons,
        isAcquire, isRelease]
  by_cases h7 : pkt.command = Command.RENAME
  · simp [handlePacket, h1, h2, h3, h4, h5, h6, h7, traceOf, handleRename,
      acquires_nil, releases_nil]
  by_cases h8 : pkt.command = Command.READ
  · simp [handlePacket, h1, h2, h3, h4, h5, h6, h7, h8]
    cases hdec : decodeReadReq pkt.data with
    | none => simp [traceOf, acquires_nil, releases_nil]
    | some p =>
      obtain ⟨f, off, len⟩ := p
      simp [traceOf]
      exact handleRead_balance fs f off len cap
  by_cases h9 : pkt.command = Command.WRITE
  · simp [handlePacket, h1, h2, h3, h4, h5, h6, h7, h8, h9]
    cases hdec : decodeWriteReq pkt.data with
    | none => simp [traceOf, acquires_nil, releases_nil]
    | some p =>
      obtain ⟨f, d⟩ := p
      simp [traceOf]
      exact handleWriteAppend_balance fs FileMode.write Command.WRITE f d
  by_cases h10 : pkt.command = Command.APPEND
  · simp [handlePacket, h1, h2, h3, h4, h5, h6, h7, h8, h9, h10]
    cases hdec : decodeWriteReq pkt.data with
    | none => simp [traceOf, acquires_nil, releases_nil]
    | some p =>
      obtain ⟨f, d⟩ := p
      simp [traceOf]
      exact handleWriteAppend_balance fs FileMode.append Command.APPEND f d
  by_cases h11 : pkt.command = Command.RMDIR
  · simp [handlePacket, h1, h2, h3, h4, h5, h6, h7, h8, h9, h10, h11]
    cases hdec : decodeStrReq pkt.data with
    | none => simp [traceOf, acquires_nil, releases_nil]
    | some d =>
      simp [traceOf, handleRmDir, acquires, releases, List.countP_cons,
        isAcquire, isRelease]
  · simp only [handlePacket]
    rw [if_neg h1, if_neg h2, if_neg h3, if_neg h4, if_neg h5, if_neg h6, if_neg h7,
      if_neg h8, if_neg h9, if_neg h10, if_neg h11]
    rfl

/-- C1: for every request whose opcode is one of the eleven recognized
opcodes, the first byte of the response the dispatcher writes equals the
request's opcode. -/
theorem C1_response_echoes_opcode (fs : FsOracle) (pkt : Packet) (cap : Nat)
    (rsp : Rsp) (t : List FsEvent) (hrec : recognizedOp pkt.command = true)
    (h : handlePacket fs pkt cap = DispatchResult.ok rsp t) :
    (serializeRsp rsp).head? = some pkt.command := by
  by_cases h1 : pkt.command = Command.COPY
  · simp [handlePacket, h1, handleCopy] at h
    obtain ⟨hr, ht⟩ := h
    simp [← hr, serializeRsp, h1]
  by_cases h2 : pkt.command = Command.FORMAT
  · simp [handlePacket, h1, h2, handleFormat] at h
    obtain ⟨hr, ht⟩ := h
    simp [← hr, serializeRsp, h2]
  by_cases h3 : pkt.command = Command.INFO
  · simp [handlePacket, h1, h2, h3, handleInfo] at h
    obtain ⟨hr, ht⟩ := h
    simp [← hr, serializeRsp, h3]
  by_cases h4 : pkt.command = Command.LIST
  · simp [handlePacket, h1, h2, h3, h4] at h
    cases hdec : decodeListReq pkt.data with
    | none => simp [hdec] at h
    | some p =>
      obtain ⟨index, dirName⟩ := p
      simp [hdec] at h
      obtain ⟨hr, ht⟩ := h
      simp [← hr, serializeRsp, handleListRsp, h4]
  by_cases h5 : pkt.command = Command.MKDIR
  · simp [handlePacket, h1, h2, h3, h4, h5] at h
    cases hdec : decodeStrReq pkt.data with
    | none => simp [hdec] at h
    | some d =>
      simp [hdec, handleMkDir] at h
      obtain ⟨hr, ht⟩ := h
      simp [← hr, serializeRsp, h5]
  by_cases h6 : pkt.command = Command.REMOVE
  · simp [handlePacket, h1, h2, h3, h4, h5, h6] at h
    cases hdec : decodeStrReq pkt.data with
    | none => simp [hdec] at h
    | some d =>
      simp [hdec, handleRemove] at h
      obtain ⟨hr, ht⟩ := h
      simp [← hr, serializeRsp, h6]
  by_cases h7 : pkt.command = Command.RENAME
  · simp [handlePacket, h1, h2, h3, h4, h5, h6, h7, handleRename] at h
    obtain ⟨hr, ht⟩ := h
    simp [← hr, serializeRsp, h7]
  by_cases h8 : pkt.command = Command.READ
  · simp [handlePacket, h1, h2, h3, h4, h5, h6, h7, h8] at h
    cases hdec : decodeReadReq pkt.data with
    | none => simp [hdec] at h
    | some p =>
      obtain ⟨f, off, len⟩ := p
      simp [hdec] at h
      obtain ⟨hr, ht⟩ := h
      unfold handleRead at hr
      rw [h8]
      by_cases hc1 : len > cap - 9
      · rw [if_pos hc1] at hr
        simp [← hr, serializeRsp]
      rw [if_neg hc1] at hr
      cases ho : fs.openOk f FileMode.read <;> rw [ho] at hr <;> simp only [Bool.not_false,
        Bool.not_true, if_true, if_false, ite_true, ite_false] at hr
      · simp [← hr, serializeRsp]
      · cases hs : fs.seekOk f off <;> rw [hs] at hr <;> simp only [Bool.not_false,
          Bool.not_true, if_true, if_false, ite_true, ite_false] at hr <;>
          simp [← hr, serializeRsp]
  by_cases h9 : pkt.command = Command.WRITE
  · simp [handlePacket, h1, h2, h3, h4, h5, h6, h7, h8, h9] at h
    cases hdec : decodeWriteReq pkt.data with
    | none => simp [hdec] at h
    | some p =>
      obtain ⟨f, d⟩ := p
      simp [hdec] at h
      obtain ⟨hr, ht⟩ := h
      unfold handleWriteAppend at hr
      rw [h9]
      cases ho : fs.openOk f FileMode.write <;> rw [ho] at hr <;> simp only [Bool.not_false,
        Bool.not_true, if_true, if_false, ite_true, ite_false] at hr
      · simp [← hr, serializeRsp]
      · by_cases hw : fs.writeAccepted f FileMode.write d.length = d.length
        · rw [if_neg (not_not_intro hw)] at hr
          simp [← hr, serializeRsp]
        · rw [if_pos hw] at hr
          simp [← hr, serializeRsp]
  by_cases h10 : pkt.command = Command.APPEND
  · simp [handlePacket, h1, h2, h3, h4, h5, h6, h7, h8, h9, h10] at h
    cases hdec : decodeWriteReq pkt.data with
    | none => simp [hdec] at h
    | some p =>
      obtain ⟨f, d⟩ := p
      simp [hdec] at h
      obtain ⟨hr, ht⟩ := h
      unfold handleWriteAppend at hr
      rw [h10]
      cases ho : fs.openOk f FileMode.append <;> rw [ho] at hr <;> simp only [Bool.not_false,
        Bool.not_true, if_true, if_false, ite_true, ite_false] at hr
      · simp [← hr, serializeRsp]
      · by_cases hw : fs.writeAccepted f FileMode.append d.length = d.length
        · rw [if_neg (not_not_intro hw)] at hr
          simp [← hr, serializeRsp]
        · rw [if_pos hw] at hr
          simp [← hr, serializeRsp]
  by_cases h11 : pkt.command = Command.RMDIR
  · simp [handlePacket, h1, h2, h3, h4, h5, h6, h7, h8, h9, h10, h11] at h
    cases hdec : decodeStrReq pkt.data with
    | none => simp [hdec] at h
    | some d =>
      simp [hdec, handleRmDir] at h
      obtain ⟨hr, ht⟩ := h
      simp [← hr, serializeRsp, h11]
  · simp only [handlePacket] at h
    rw [if_neg h1, if_neg h2, if_neg h3, if_neg h4, if_neg h5, if_neg h6, if_neg h7,
      if_neg h8, if_neg h9, if_neg h10, if_neg h11] at h
    simp at h

/-- Witness for C1: a concrete FORMAT request against the concrete
oracle. -/
theorem C1_response_echoes_opcode_witness :
    (serializeRsp { command := Command.FORMAT, data := [Error.NONE] }).head?
      = some (Packet.mk Command.FORMAT []).command :=
  C1_response_echoes_opcode fsW { command := Command.FORMAT, data := [] } 10
    { command := Command.FORMAT, data := [Error.NONE] } [FsEvent.formatFs true]
    (by decide) (by rfl)

/-- C8: a RENAME or COPY request, whatever its payload, yields exactly the
echoed opcode with no payload bytes and an empty filesystem trace, so no
filesystem operation runs and the filesystem state is unchanged. -/
theorem C8_rename_copy_echo_only (fs : FsOracle) (pkt : Packet) (cap : Nat)
    (h : pkt.command = Command.RENAME ∨ pkt.command = Command.COPY) :
    handlePacket fs pkt cap
      = DispatchResult.ok { command := pkt.command, data := [] } [] := by
  rcases h with h | h
  · simp [handlePacket, h, handleRename]
  · simp [handlePacket, h, handleCopy]

/-- Witness for C8: a concrete COPY request with a junk payload. -/
theorem C8_rename_copy_echo_only_witness :
    handlePacket fsW { command := Command.COPY, data := [1, 2, 3] } 5
      = DispatchResult.ok { command := Command.COPY, data := [] } [] :=
  C8_rename_copy_echo_only fsW { command := Command.COPY, data := [1, 2, 3] } 5
    (Or.inr rfl)

/-- C7: FORMAT, MKDIR, REMOVE and RMDIR answer with exactly one error
byte, which is `NONE` exactly when the corresponding filesystem call
returns true and is the dedicated failure code otherwise. -/
theorem C7_single_error_byte (fs : FsOracle) (d f r : List Nat) :
    (handleFormat fs).1.data
        = [if fs.formatOk then Error.NONE else Error.FORMAT_FAILED]
    ∧ ((handleFormat fs).1.data = [Error.NONE] ↔ fs.formatOk = true)
    ∧ (handleMkDir fs d).1.data
        = [if fs.mkdirOk d then Error.NONE else Error.MKDIR_FAILED]
    ∧ ((handleMkDir fs d).1.data = [Error.NONE] ↔ fs.mkdirOk d = true)
    ∧ (handleRemove fs f).1.data
        = [if fs.removeOk f then Error.NONE else Error.REMOVE_FAILED]
    ∧ ((handleRemove fs f).1.data = [Error.NONE] ↔ fs.removeOk f = true)
    ∧ (handleRmDir fs r).1.data
        = [if fs.rmdirOk r then Error.NONE else Error.RMDIR_FAILED]
    ∧ ((handleRmDir fs r).1.data = [Error.NONE] ↔ fs.rmdirOk r = true) := by
  refine ⟨rfl, ?_, rfl, ?_, rfl, ?_, rfl, ?_⟩
  · cases hb : fs.formatOk <;> simp [handleFormat, hb]
  · cases hb : fs.mkdirOk d <;> simp [handleMkDir, hb]
  · cases hb : fs.removeOk f <;> simp [handleRemove, hb]
  · cases hb : fs.rmdirOk r <;> simp [handleRmDir, hb]

/-- Witness for C7 at the concrete oracle: its `remove` fails, so REMOVE
answers with `REMOVE_FAILED`. -/
theorem C7_single_error_byte_witness :
    (handleRemove fsW [97]).1.data
      = [if fsW.removeOk [97] then Error.NONE else Error.REMOVE_FAILED] :=
  (C7_single_error_byte fsW [] [97] []).2.2.2.2.1

/-- C6: a WRITE or APPEND response is exactly one error byte:
`UNABLE_TO_OPEN_FILE` when the open fails, `WRITE_FAILED` when the open
succeeds but the filesystem accepts fewer than `length` bytes, `NONE`
when all bytes are written. -/
theorem C6_write_append_status (fs : FsOracle) (mode : FileMode) (op : Nat)
    (filename data : List Nat)
    (hacc : fs.writeAccepted filename mode data.length ≤ data.length) :
    (handleWriteAppend fs mode op filename data).1.data =
      [if fs.openOk filename mode = false then Error.UNABLE_TO_OPEN_FILE
       else if fs.writeAccepted filename mode data.length < data.length then
         Error.WRITE_FAILED
       else Error.NONE] := by
  unfold handleWriteAppend
  cases ho : fs.openOk filename mode
  · simp [ho]
  · simp only [ho, Bool.not_true, Bool.false_eq_true, if_false]
    by_cases hw : fs.writeAccepted filename mode data.length = data.length
    · rw [if_neg (not_not_intro hw)]
      simp [hw]
    · rw [if_pos hw]
      simp [Nat.lt_of_le_of_ne hacc hw]

/-- Witness for C6: a concrete WRITE at the concrete oracle, whose writes
accept everything. -/
theorem C6_write_append_status_witness :
    (handleWriteAppend fsW FileMode.write Command.WRITE [97] [10, 20]).1.data =
      [if fsW.openOk [97] FileMode.write = false then Error.UNABLE_TO_OPEN_FILE
       else if fsW.writeAccepted [97] FileMode.write [10, 20].length < [10, 20].length then
         Error.WRITE_FAILED
       else Error.NONE] :=
  C6_write_append_status fsW FileMode.write Command.WRITE [97] [10, 20] (by decide)

/-- C3: a READ request whose length exceeds the response capacity left
after the 9-byte error/offset/length header answers `READ_FAILED` with
reported length 0 and the requested offset echoed, with an empty
filesystem trace: no file is opened and no I/O happens. -/
theorem C3_read_capacity_guard (fs : FsOracle) (filename : List Nat)
    (offset length cap : Nat) (hcap : 9 ≤ cap) (hlen : cap - 9 < length) :
    handleRead fs filename offset length cap =
      ({ command := Command.READ,
         data := Error.READ_FAILED :: (encodeU32 offset ++ encodeU32 0) }, []) := by
  unfold handleRead
  rw [if_pos hlen]

/-- Witness for C3: a concrete over-long READ. -/
theorem C3_read_capacity_guard_witness :
    handleRead fsW [97] 5 1 9 =
      ({ command := Command.READ,
         data := Error.READ_FAILED :: (encodeU32 5 ++ encodeU32 0) }, []) :=
  C3_read_capacity_guard fsW [97] 5 1 9 (by decide) (by decide)

/-- C10: a READ that fails with `UNABLE_TO_OPEN_FILE` or `SEEK_FAILED`
still echoes the originally requested length in the length header field,
and no data bytes follow the 9-byte error/offset/length header. -/
theorem C10_read_error_header (fs : FsOracle) (filename : List Nat)
    (offset length cap : Nat) (hfit : length ≤ cap - 9)
    (herr : fs.openOk filename FileMode.read = false
      ∨ fs.seekOk filename offset = false) :
    (handleRead fs filename offset length cap).1.data =
      (if fs.openOk filename FileMode.read = false then Error.UNABLE_TO_OPEN_FILE
       else Error.SEEK_FAILED) :: (encodeU32 offset ++ encodeU32 length)
    ∧ ((handleRead fs filename offset length cap).1.data).length = 9 := by
  unfold handleRead
  rw [if_neg (by omega)]
  cases ho : fs.openOk filename FileMode.read
  · simp [encodeU32]
  · rcases herr with h | h
    · rw [ho] at h
      simp at h
    · simp [ho, h, encodeU32]

/-- Witness for C10: a concrete READ whose open fails. -/
theorem C10_read_error_header_witness :
    (handleRead fsBig [97] 4 0 9).1.data =
      (if fsBig.openOk [97] FileMode.read = false then Error.UNABLE_TO_OPEN_FILE
       else Error.SEEK_FAILED) :: (encodeU32 4 ++ encodeU32 0)
    ∧ ((handleRead fsBig [97] 4 0 9).1.data).length = 9 :=
  C10_read_error_header fsBig [97] 4 0 9 (by decide) (Or.inl rfl)

/-- C2: when the capacity cuts the listing after exactly `K` of the
`N > K` entries, LIST with index 0 emits exactly `K` complete records —
its payload is precisely the concatenation of their encodings, within the
capacity bound, no record partial — and LIST with `index = K` (and room
for the rest) emits the remaining `N − K` entries, the two pages together
reproducing the whole traversal in order. -/
theorem C2_list_paging (fs : FsOracle) (dirName : List Nat) (K cap cap2 : Nat)
    (hcut : cutAt (effEntries fs dirName) K cap = true)
    (hcap2 : sumSizes ((effEntries fs dirName).drop K) ≤ cap2) :
    K < (effEntries fs dirName).length
    ∧ (listPage fs 0 dirName cap).length = K
    ∧ (handleListRsp fs 0 dirName cap).data = recordsBytes (listPage fs 0 dirName cap)
    ∧ ((handleListRsp fs 0 dirName cap).data).length ≤ cap
    ∧ (listPage fs 0 dirName cap).map Prod.snd = (effEntries fs dirName).take K
    ∧ (listPage fs K dirName cap2).map Prod.snd = (effEntries fs dirName).drop K
    ∧ ((listPage fs 0 dirName cap) ++ (listPage fs K dirName cap2)).map Prod.snd
        = effEntries fs dirName := by
  obtain ⟨hcnt, hKlt⟩ := cutAt_emitCount (effEntries fs dirName) K cap hcut
  have hpage1 : listPage fs 0 dirName cap = withIdx 0 ((effEntries fs dirName).take K) := by
    rw [listPage, List.drop_zero, listRecords_eq_withIdx_take, hcnt]
  have hpage2 : listPage fs K dirName cap2 = withIdx K ((effEntries fs dirName).drop K) :=
    listRecords_full _ K cap2 hcap2
  refine ⟨hKlt, ?_, ?_, ?_, ?_, ?_, ?_⟩
  · rw [hpage1, withIdx_length, List.length_take]
    omega
  · rw [handleListRsp, listPage, listBytes_eq_recordsBytes]
  · exact le_trans (le_of_eq (congrArg List.length rfl)) (listBytes_length_le _ _ _)
  · rw [hpage1, withIdx_map_snd]
  · rw [hpage2, withIdx_map_snd]
  · rw [List.map_append, hpage1, hpage2, withIdx_map_snd, withIdx_map_snd,
      List.take_append_drop]

/-- Witness for C2: the concrete two-entry directory with capacity for
exactly the first record. -/
theorem C2_list_paging_witness :
    ((listPage fsW 0 [100] 13) ++ (listPage fsW 1 [100] 14)).map Prod.snd
      = effEntries fsW [100] :=
  (C2_list_paging fsW [100] 1 13 14 (by decide) (by decide)).2.2.2.2.2.2

/-- C9 (amended): each record a LIST request emits carries, in its `u16`
index field, the entry's absolute position in the traversal reduced
modulo 2^16 — the `fileNum` counter is a `uint16_t` and wraps — and the
record's entry is the one at that absolute position. -/
theorem C9_list_record_indices (fs : FsOracle) (dirName : List Nat)
    (index cap j : Nat) (p : Nat × FsEntry) (hidx : index < 65536)
    (hp : (listPage fs index dirName cap)[j]? = some p) :
    p.1 = (index + j) % 65536
    ∧ (effEntries fs dirName)[index + j]? = some p.2 := by
  rw [listPage, listRecords_eq_withIdx_take, withIdx_getElem? _ _ _ hidx] at hp
  cases hq : (((effEntries fs dirName).drop index).take
      (emitCount ((effEntries fs dirName).drop index) cap))[j]? with
  | none =>
    rw [hq] at hp
    simp at hp
  | some e =>
    rw [hq] at hp
    simp at hp
    have hjlt : j < (((effEntries fs dirName).drop index).take
        (emitCount ((effEntries fs dirName).drop index) cap)).length := by
      by_contra hcon
      rw [List.getElem?_eq_none (Nat.le_of_not_lt hcon)] at hq
      exact Option.noConfusion hq
    have hjn : j < emitCount ((effEntries fs dirName).drop index) cap := by
      rw [List.length_take] at hjlt
      omega
    have hdropj : ((effEntries fs dirName).drop index)[j]? = some e := by
      rw [← List.getElem?_take_of_lt hjn]
      exact hq
    constructor
    · rw [← hp]
    · rw [← List.getElem?_drop]
      rw [hdropj, ← hp]

/-- Witness for C9 (amended): the first record of the concrete listing. -/
theorem C9_list_record_indices_witness :
    (0, entA).1 = (0 + 0) % 65536 ∧ (effEntries fsW [100])[0 + 0]? = some (0, entA).2 :=
  C9_list_record_indices fsW [100] 0 13 0 (0, entA) (by decide) (by decide)

/-- C9 counterexample to the unamended claim: over a 65537-entry
directory, a LIST starting at index 65535 emits as its second record the
entry at absolute position 65536, yet the record's index field is 0, not
`index + 1 = 65536`: the `u16` field wraps. -/
theorem C9_index_field_wraps :
    (listPage fsBig 65535 [100] 26)[1]? = some (0, entA) ∧ 65535 + 1 ≠ 0 := by
  constructor
  · have heff : effEntries fsBig [100] = List.replicate 65537 entA := rfl
    have hdrop : (List.replicate 65537 entA).drop 65535 = List.replicate 2 entA := by
      rw [List.drop_replicate]
    rw [listPage, heff, hdrop]
    decide
  · decide

/-- C4 (code bug): a READ request whose declared payload is empty is
shorter than the `str filename`, `u32 offset`, `u32 length` fields READ
requires.  Decoding fails — `decodeReadReq [] = none` — and the source,
which never checks its `Unpacker` calls before using the decoded values,
produces no well-defined response at all, in particular not the error
response the spec requires; the dispatch outcome is `malformed`. -/
theorem C4_short_payload_undefended :
    handlePacket fsW { command := Command.READ, data := [] } 100
        = DispatchResult.malformed
    ∧ decodeReadReq [] = none := by
  constructor <;> rfl
